import Mathlib

/-!
Verification of the real-time presence and signaling relay of `src/server.js`.

The server keeps two JavaScript `Map`s as global state:
  * `onlineUsers`    : socketId → session record (username, isBusy, currentRoom, avatar)
  * `userSocketMap`  : username → socketId (last-writer-wins)
and nine socket event handlers mutate this state and emit events.

JS `Map`s are modelled as insertion-ordered association lists with unique keys:
`set` of an existing key updates the value in place (keeping its position),
`set` of a new key appends, `delete` removes the entry, iteration follows
insertion order.  Event payloads coming from clients are modelled with
`Option` fields (a missing field is JavaScript `undefined`), and a missing
payload object itself is `none` at the outer level: accessing a property of
`undefined` throws a `TypeError`, modelled by `Except.error`.
-/

namespace VChat

/-- A connection session record, as stored in `onlineUsers`
(`{ username, isBusy, currentRoom, avatar }`, `src/server.js` line 183). -/
structure Session where
  username : String
  isBusy : Bool
  currentRoom : Option String
  avatar : Option String
deriving Repr, DecidableEq

/-- A live socket: its transport-assigned id and the verified username fixed
by the auth middleware (`socket.username`). -/
structure Socket where
  id : String
  username : String
deriving Repr, DecidableEq

/-- `Map.get`: value at the first (only) occurrence of the key. -/
def mapGet {α : Type} : List (String × α) → String → Option α
  | [], _ => none
  | (k, v) :: rest, k' => if k = k' then some v else mapGet rest k'

/-- `Map.set`: update in place if the key is present, else append. -/
def mapSet {α : Type} : List (String × α) → String → α → List (String × α)
  | [], k, v => [(k, v)]
  | (k', v') :: rest, k, v =>
      if k' = k then (k', v) :: rest else (k', v') :: mapSet rest k v

/-- `Map.delete`: remove the entry with the given key. -/
def mapDelete {α : Type} : List (String × α) → String → List (String × α)
  | [], _ => []
  | (k', v) :: rest, k => if k' = k then mapDelete rest k else (k', v) :: mapDelete rest k

@[simp] theorem mapGet_nil {α : Type} (k : String) : mapGet ([] : List (String × α)) k = none := rfl

theorem mapGet_cons {α : Type} (k k' : String) (v : α) (rest : List (String × α)) :
    mapGet ((k, v) :: rest) k' = if k = k' then some v else mapGet rest k' := rfl

@[simp] theorem mapGet_mapSet_self {α : Type} (m : List (String × α)) (k : String) (v : α) :
    mapGet (mapSet m k v) k = some v := by
  induction m with
  | nil => simp [mapGet, mapSet]
  | cons p rest ih =>
      obtain ⟨k', v'⟩ := p
      by_cases h : k' = k
      · subst h; simp [mapGet, mapSet]
      · simp [mapGet, mapSet, h, ih]

theorem mapGet_mapSet_ne {α : Type} (m : List (String × α)) (k k' : String) (v : α)
    (h : k ≠ k') : mapGet (mapSet m k v) k' = mapGet m k' := by
  induction m with
  | nil => simp [mapGet, mapSet, h]
  | cons p rest ih =>
      obtain ⟨k₀, v₀⟩ := p
      by_cases hk : k₀ = k
      · subst hk; simp [mapGet, mapSet, h]
      · by_cases hk' : k₀ = k'
        · subst hk'; simp [mapGet, mapSet, hk]
        · simp [mapGet, mapSet, hk, hk', ih]

@[simp] theorem mapGet_mapDelete_self {α : Type} (m : List (String × α)) (k : String) :
    mapGet (mapDelete m k) k = none := by
  induction m with
  | nil => simp [mapDelete]
  | cons p rest ih =>
      obtain ⟨k₀, v₀⟩ := p
      by_cases h : k₀ = k
      · simp [mapDelete, h, ih]
      · simp [mapDelete, mapGet, h, ih]

theorem mapGet_mapDelete_ne {α : Type} (m : List (String × α)) (k k' : String)
    (h : k ≠ k') : mapGet (mapDelete m k) k' = mapGet m k' := by
  induction m with
  | nil => simp [mapDelete]
  | cons p rest ih =>
      obtain ⟨k₀, v₀⟩ := p
      by_cases hk : k₀ = k
      · subst hk; simp [mapDelete, mapGet, h, ih]
      · by_cases hk' : k₀ = k'
        · subst hk'; simp [mapDelete, mapGet, hk]
        · simp [mapDelete, mapGet, hk, hk', ih]

/-- The two global registries of `src/server.js` (lines 25–26):
`onlineUsers : Map socketId → Session` and `userSocketMap : Map username → socketId`. -/
structure RegistryState where
  onlineUsers : List (String × Session)
  userSocketMap : List (String × String)
deriving Repr, DecidableEq

/-- The empty initial state. -/
def RegistryState.empty : RegistryState := ⟨[], []⟩

/-- Registration on connection (`src/server.js` lines 182–184):
`onlineUsers.set(socket.id, buildSession)` and `userSocketMap.set(socket.username, socket.id)`. -/
def registerConn (st : RegistryState) (sock : Socket) (avatar : Option String) : RegistryState :=
  { onlineUsers := mapSet st.onlineUsers sock.id ⟨sock.username, false, none, avatar⟩
    userSocketMap := mapSet st.userSocketMap sock.username sock.id }

/-- State effect of the `join` handler (`src/server.js` lines 196–197):
`const user = onlineUsers.get(socket.id); if (user) then user.isBusy = true;
user.currentRoom = data.room`.  The `room` is the payload's `room` field,
which is `undefined` (`none`) when the client omitted it. -/
def joinRoom (st : RegistryState) (sock : Socket) (room : Option String) : RegistryState :=
  match mapGet st.onlineUsers sock.id with
  | none => st
  | some user =>
      { st with onlineUsers :=
          mapSet st.onlineUsers sock.id { user with isBusy := true, currentRoom := room } }

/-- State effect of the `disconnect` handler (`src/server.js` lines 215–216):
`onlineUsers.delete(socket.id); userSocketMap.delete(socket.username)` —
the username route is deleted unconditionally. -/
def disconnectConn (st : RegistryState) (sock : Socket) : RegistryState :=
  { onlineUsers := mapDelete st.onlineUsers sock.id
    userSocketMap := mapDelete st.userSocketMap sock.username }

/-- The registry-mutating operations (the other six handlers never touch
the two maps). -/
inductive Op where
  | reg (sock : Socket) (avatar : Option String)
  | join (sock : Socket) (room : Option String)
  | disc (sock : Socket)
deriving Repr, DecidableEq

/-- Apply one operation to a registry state. -/
def applyOp (st : RegistryState) : Op → RegistryState
  | .reg sock avatar => registerConn st sock avatar
  | .join sock _room => joinRoom st sock _room
  | .disc sock => disconnectConn st sock

/-- Transport-layer guarantees under which an operation can fire:
a fresh connection's id is not a live key of `onlineUsers` (socket ids are
unique while live), and a socket's `username` field never changes, so a
`join`/`disconnect` for a live id carries the username that id was
registered with. -/
def wfOp (st : RegistryState) : Op → Prop
  | .reg sock _ => mapGet st.onlineUsers sock.id = none
  | .join sock _ => ∀ sess, mapGet st.onlineUsers sock.id = some sess → sess.username = sock.username
  | .disc sock => ∀ sess, mapGet st.onlineUsers sock.id = some sess → sess.username = sock.username

/-- States reachable from the empty registry by well-formed operations. -/
inductive Reachable : RegistryState → Prop
  | init : Reachable RegistryState.empty
  | step (st : RegistryState) (op : Op) : Reachable st → wfOp st op → Reachable (applyOp st op)

/-- One step of the accumulation loop in `getUniqueOnlineUsers`
(`src/server.js` lines 30–37): first session of a username is copied in as
the representative; a later session only upgrades `isBusy` to `true`. -/
def mergeBusy (acc : List (String × Session)) (user : Session) : List (String × Session) :=
  match mapGet acc user.username with
  | none => acc ++ [(user.username, user)]
  | some existing =>
      if user.isBusy then mapSet acc user.username { existing with isBusy := true } else acc

/-- `getUniqueOnlineUsers()` (`src/server.js` lines 28–39): deduplicate
`onlineUsers` by username, OR-ing `isBusy`, returning the values in
insertion order. -/
def getUniqueOnlineUsers (onlineUsers : List (String × Session)) : List Session :=
  (onlineUsers.foldl (fun acc p => mergeBusy acc p.2) []).map (fun p => p.2)

/-! ### Event handlers

Client payloads are JS objects: a field the client omitted is `undefined`,
modelled as `none`; an absent payload object is `none` at the outer level,
and every handler starts by reading a property of it, which in JS throws a
`TypeError` — modelled as `Except.error JsError.typeError`. -/

/-- The one JS exception class these handlers can raise: reading a property
of `undefined`. -/
inductive JsError where
  | typeError
deriving Repr, DecidableEq

/-- JS truthiness test for an optional string (`if (targetId)`):
`undefined` and the empty string are falsy. -/
def jsFalsy : Option String → Bool
  | none => true
  | some s => s = ""

/-- `map.get(k)` where the key expression may itself be `undefined`
(JS `Map.get(undefined)` finds nothing, since all stored keys are strings). -/
def optGet {α : Type} (m : List (String × α)) : Option String → Option α
  | none => none
  | some k => mapGet m k

/-- Delivery set of `socket.to(x).emit(...)`: the room named by a socket id
contains exactly that socket, and `.to` excludes the sender, so the event
reaches `x` itself unless `x` is the sender; `socket.to(undefined)` hits an
empty room. -/
def socketTo (senderId : String) : Option String → List String
  | none => []
  | some t => if t = senderId then [] else [t]

/-- Payload of a client `initiate-call` event (`data.target`, `data.room`,
`data.type`, `data.callMode`). -/
structure InitiateCallData where
  target : Option String
  room : Option String
  type : Option String
  callMode : Option String
deriving Repr, DecidableEq

/-- An event emitted by the `initiate-call` handler, with its recipient. -/
inductive CallEvent where
  | incomingCall (recipient : String) (fromUsername : String)
      (room type callMode : Option String)
  | callRejected (recipient : String) (fromLabel reason : String)
deriving Repr, DecidableEq

/-- The `initiate-call` handler (`src/server.js` lines 188–192):
look up `data.target` in `userSocketMap`; if falsy, emit one `call-rejected`
to the caller; otherwise `socket.to(targetId).emit("incoming-call", ...)`. -/
def initiateCall (st : RegistryState) (sender : Socket)
    (data : Option InitiateCallData) : Except JsError (List CallEvent) :=
  match data with
  | none => .error .typeError
  | some d =>
      let targetId := optGet st.userSocketMap d.target
      if jsFalsy targetId then
        .ok [.callRejected sender.id "System" "offline"]
      else
        .ok ((socketTo sender.id targetId).map
          (fun t => .incomingCall t sender.username d.room d.type d.callMode))

/-- One recorded call of `db.saveMessage(sender, receiver, room, message,
image, kind)`. -/
structure PersistCall where
  sender : String
  receiver : Option String
  room : Option String
  message : Option String
  image : Option String
  kind : String
deriving Repr, DecidableEq

/-- Payload of a client `private-chat` event (`data.to`, `data.text`,
`data.image`). -/
structure PrivateChatData where
  sendTo : Option String
  text : Option String
  image : Option String
deriving Repr, DecidableEq

/-- A `private-chat` event as emitted to one recipient: the original payload
spread together with the added `sender` and `time` fields. -/
structure PrivateChatEvent where
  recipient : String
  data : PrivateChatData
  sender : String
  time : String
deriving Repr, DecidableEq

/-- The `private-chat` handler (`src/server.js` lines 207–212): persist
unconditionally with kind `private`, forward via `socket.to(targetId)` when
`userSocketMap.get(data.to)` is truthy, and always `socket.emit` an echo to
the sender's own connection. -/
def privateChat (st : RegistryState) (sender : Socket) (time : String)
    (data : Option PrivateChatData) :
    Except JsError (List PersistCall × List PrivateChatEvent) :=
  match data with
  | none => .error .typeError
  | some d =>
      let persists := [⟨sender.username, d.sendTo, none, d.text, d.image, "private"⟩]
      let targetId := optGet st.userSocketMap d.sendTo
      let fwd := if jsFalsy targetId then [] else
        (socketTo sender.id targetId).map (fun t => ⟨t, d, sender.username, time⟩)
      .ok (persists, fwd ++ [⟨sender.id, d, sender.username, time⟩])

/-- Payload of a client `chat-message` event. -/
structure ChatMessageData where
  room : Option String
  text : Option String
  image : Option String
deriving Repr, DecidableEq

/-- A room broadcast produced by the `chat-message` handler:
`socket.to(data.room).emit("chat-message", spread + sender + time)`. -/
structure ChatMessageEvent where
  room : Option String
  data : ChatMessageData
  sender : String
  time : String
deriving Repr, DecidableEq

/-- The `chat-message` handler (`src/server.js` lines 202–205). -/
def chatMessage (sender : Socket) (time : String) (data : Option ChatMessageData) :
    Except JsError (List PersistCall × ChatMessageEvent) :=
  match data with
  | none => .error .typeError
  | some d =>
      .ok ([⟨sender.username, none, d.room, d.text, d.image, "group"⟩],
           ⟨d.room, d, sender.username, time⟩)

/-- A `user-joined` notification to the rest of the room. -/
structure UserJoinedEvent where
  room : Option String
  id : String
  username : String
deriving Repr, DecidableEq

/-- The `join` handler (`src/server.js` lines 194–200): join the room, mark
the session busy with `currentRoom := data.room`, notify the room. -/
def joinHandler (st : RegistryState) (sender : Socket)
    (data : Option (Option String)) :
    Except JsError (RegistryState × UserJoinedEvent) :=
  match data with
  | none => .error .typeError
  | some room =>
      .ok (joinRoom st sender room, ⟨room, sender.id, sender.username⟩)

/-- Payload of a signaling event: `d.sendTo` and the opaque handshake body
(`d.offer` / `d.answer` / `d.candidate`), of arbitrary type `α`. -/
structure SignalData (α : Type) where
  sendTo : Option String
  body : Option α
deriving Repr, DecidableEq

/-- A forwarded signaling event: the opaque body plus the routing metadata
the server adds (`from`, and `username` for the offer case only). -/
structure SignalEvent (α : Type) where
  recipient : String
  body : Option α
  fromId : String
  username : Option String
deriving Repr, DecidableEq

/-- The `offer` handler (`src/server.js` line 220):
`socket.to(d.sendTo).emit("offer", sendBody)` where sendBody carries `d.offer`,
`from := socket.id` and `username := socket.username`. -/
def offerHandler {α : Type} (sender : Socket) (data : Option (SignalData α)) :
    Except JsError (List (SignalEvent α)) :=
  match data with
  | none => .error .typeError
  | some d =>
      .ok ((socketTo sender.id d.sendTo).map
        (fun t => ⟨t, d.body, sender.id, some sender.username⟩))

/-- The `answer` handler (`src/server.js` line 221): like `offer` but the
forwarded event carries only `answer` and `from`, no username. -/
def answerHandler {α : Type} (sender : Socket) (data : Option (SignalData α)) :
    Except JsError (List (SignalEvent α)) :=
  match data with
  | none => .error .typeError
  | some d =>
      .ok ((socketTo sender.id d.sendTo).map (fun t => ⟨t, d.body, sender.id, none⟩))

/-- The `ice` handler (`src/server.js` line 222): forwards `candidate` and
`from`, no username. -/
def iceHandler {α : Type} (sender : Socket) (data : Option (SignalData α)) :
    Except JsError (List (SignalEvent α)) :=
  match data with
  | none => .error .typeError
  | some d =>
      .ok ((socketTo sender.id d.sendTo).map (fun t => ⟨t, d.body, sender.id, none⟩))

/-- `routeTo(username)` of the spec: resolve a username through
`userSocketMap` (`userSocketMap.get(...)` in the handlers). -/
def routeTo (st : RegistryState) (u : String) : Option String :=
  mapGet st.userSocketMap u

/-- Whether some session in the list has the given username and is busy. -/
def busyOf (l : List (String × Session)) (u : String) : Bool :=
  l.any (fun p => p.2.username == u && p.2.isBusy)

/-- Loop invariant of `getUniqueOnlineUsers`: after folding `mergeBusy` over
`processed`, the accumulator has pairwise-distinct keys, each value's
username equals its key, each value's `isBusy` is the OR over the processed
sessions of that username, and every processed username is a key. -/
def DedupInv (processed acc : List (String × Session)) : Prop :=
  List.Pairwise (fun a b => a.1 ≠ b.1) acc ∧
  (∀ p ∈ acc, p.2.username = p.1) ∧
  (∀ k e, mapGet acc k = some e → e.isBusy = busyOf processed k) ∧
  (∀ k, mapGet acc k = none → ∀ p ∈ processed, p.2.username ≠ k)

/-- Spec §3 invariant: every connectionId stored in `userSocketMap` is a
live key of `onlineUsers` (and its session carries that username). -/
def routesLive (st : RegistryState) : Prop :=
  ∀ u c, mapGet st.userSocketMap u = some c →
    ∃ sess, mapGet st.onlineUsers c = some sess ∧ sess.username = u

/-! ### General lemmas about the map model -/

theorem mapGet_eq_none_iff {α : Type} (m : List (String × α)) (k : String) :
    mapGet m k = none ↔ ∀ p ∈ m, p.1 ≠ k := by
  induction m with
  | nil => simp
  | cons p rest ih =>
      obtain ⟨k₀, v₀⟩ := p
      by_cases h : k₀ = k
      · subst h; simp [mapGet]
      · simp [mapGet, h, ih]

theorem mem_mapSet {α : Type} (m : List (String × α)) (k : String) (v : α)
    (p : String × α) : p ∈ mapSet m k v → p ∈ m ∨ p = (k, v) := by
  induction m with
  | nil => intro hp; simpa [mapSet] using hp
  | cons q rest ih =>
      obtain ⟨k₀, v₀⟩ := q
      intro hp
      by_cases h : k₀ = k
      · subst h
        simp only [mapSet, if_pos rfl] at hp
        cases hp with
        | head => exact Or.inr rfl
        | tail _ h2 => exact Or.inl (List.mem_cons_of_mem _ h2)
      · simp only [mapSet, if_neg h] at hp
        cases hp with
        | head => exact Or.inl (List.mem_cons_self _ _)
        | tail _ h2 =>
            cases ih h2 with
            | inl h3 => exact Or.inl (List.mem_cons_of_mem _ h3)
            | inr h3 => exact Or.inr h3

theorem pairwise_keys_mapSet {α : Type} (m : List (String × α)) (k : String) (v : α)
    (h : List.Pairwise (fun a b => a.1 ≠ b.1) m) :
    List.Pairwise (fun (a b : String × α) => a.1 ≠ b.1) (mapSet m k v) := by
  induction m with
  | nil => simp [mapSet]
  | cons q rest ih =>
      obtain ⟨k₀, v₀⟩ := q
      rcases List.pairwise_cons.mp h with ⟨hhead, htail⟩
      by_cases hk : k₀ = k
      · subst hk
        simp only [mapSet, if_pos rfl]
        exact List.pairwise_cons.mpr ⟨hhead, htail⟩
      · simp only [mapSet, if_neg hk]
        refine List.pairwise_cons.mpr ⟨?_, ih htail⟩
        intro q hq
        rcases mem_mapSet rest k v q hq with h' | h'
        · exact hhead q h'
        · rw [h']; exact hk

theorem mapGet_of_mem {α : Type} (m : List (String × α)) (k : String) (v : α)
    (hpair : List.Pairwise (fun a b => a.1 ≠ b.1) m) (hm : (k, v) ∈ m) :
    mapGet m k = some v := by
  induction m with
  | nil => simp at hm
  | cons q rest ih =>
      obtain ⟨k₀, v₀⟩ := q
      rcases List.pairwise_cons.mp hpair with ⟨hhead, htail⟩
      rcases List.mem_cons.mp hm with h | h
      · cases h
        simp [mapGet]
      · have hne : k₀ ≠ k := hhead (k, v) h
        simp [mapGet, hne, ih htail h]

theorem mapGet_append_of_none {α : Type} (m : List (String × α)) (k k' : String) (v : α)
    (h : mapGet m k' = none) :
    mapGet (m ++ [(k, v)]) k' = if k = k' then some v else none := by
  induction m with
  | nil => simp [mapGet]
  | cons q rest ih =>
      obtain ⟨k₀, v₀⟩ := q
      by_cases hk : k₀ = k'
      · subst hk; simp [mapGet] at h
      · simp only [mapGet, if_neg hk] at h
        simpa [mapGet, hk] using ih h

theorem mapGet_append_of_some {α : Type} (m l : List (String × α)) (k : String) (v : α)
    (h : mapGet m k = some v) : mapGet (m ++ l) k = some v := by
  induction m with
  | nil => simp [mapGet] at h
  | cons q rest ih =>
      obtain ⟨k₀, v₀⟩ := q
      by_cases hk : k₀ = k
      · subst hk; simp [mapGet] at h ⊢; exact h
      · simp only [mapGet, if_neg hk] at h ⊢; exact ih h

theorem mem_socketTo (senderId t : String) (x : Option String)
    (h : t ∈ socketTo senderId x) : x = some t ∧ t ≠ senderId := by
  cases x with
  | none => simp [socketTo] at h
  | some y =>
      by_cases hy : y = senderId
      · simp [socketTo, hy] at h
      · simp only [socketTo, if_neg hy, List.mem_singleton] at h
        subst h; exact ⟨rfl, hy⟩

theorem mem_of_mapGet {α : Type} (m : List (String × α)) (k : String) (v : α)
    (h : mapGet m k = some v) : (k, v) ∈ m := by
  induction m with
  | nil => simp [mapGet] at h
  | cons q rest ih =>
      obtain ⟨k₀, v₀⟩ := q
      by_cases hk : k₀ = k
      · subst hk
        rw [mapGet_cons, if_pos rfl] at h
        injection h with h
        subst h
        exact List.mem_cons_self _ _
      · rw [mapGet_cons, if_neg hk] at h
        exact List.mem_cons_of_mem _ (ih h)

theorem busyOf_append_single (l : List (String × Session)) (p : String × Session)
    (k : String) :
    busyOf (l ++ [p]) k = (busyOf l k || (p.2.username == k && p.2.isBusy)) := by
  simp [busyOf]

/-- The `mergeBusy` accumulation step preserves the dedup loop invariant. -/
theorem dedupInv_step (processed acc : List (String × Session)) (p : String × Session)
    (h : DedupInv processed acc) : DedupInv (processed ++ [p]) (mergeBusy acc p.2) := by
  obtain ⟨hpair, hname, hbusy, hcover⟩ := h
  cases hget : mapGet acc p.2.username with
  | none =>
      simp only [mergeBusy, hget]
      refine ⟨?_, ?_, ?_, ?_⟩
      · rw [List.pairwise_append]
        refine ⟨hpair, List.pairwise_singleton _ _, ?_⟩
        intro a ha b hb
        rw [List.mem_singleton] at hb
        subst hb
        exact (mapGet_eq_none_iff acc p.2.username).mp hget a ha
      · intro q hq
        rcases List.mem_append.mp hq with hq | hq
        · exact hname q hq
        · rw [List.mem_singleton] at hq
          subst hq
          rfl
      · intro k e hk
        cases hacc : mapGet acc k with
        | some w =>
            rw [mapGet_append_of_some _ _ _ _ hacc] at hk
            injection hk with hk
            subst hk
            have h1 := hbusy k w hacc
            have hne : p.2.username ≠ k := by
              intro hh
              rw [hh, hacc] at hget
              exact Option.noConfusion hget
            rw [busyOf_append_single]
            simp [hne, h1]
        | none =>
            rw [mapGet_append_of_none _ _ _ _ hacc] at hk
            by_cases hu : p.2.username = k
            · rw [if_pos hu] at hk
              cases hk
              have h2 : busyOf processed k = false := by
                rw [busyOf, List.any_eq_false]
                intro q hq
                simp [hcover k hacc q hq]
              rw [busyOf_append_single, h2, hu]
              simp
            · rw [if_neg hu] at hk
              exact Option.noConfusion hk
      · intro k hk q hq
        have hknone : mapGet acc k = none := by
          cases hacc : mapGet acc k with
          | none => rfl
          | some w =>
              rw [mapGet_append_of_some _ _ _ _ hacc] at hk
              exact Option.noConfusion hk
        rcases List.mem_append.mp hq with hq | hq
        · exact hcover k hknone q hq
        · rw [List.mem_singleton] at hq
          subst hq
          intro hh
          rw [mapGet_append_of_none _ _ _ _ hknone, if_pos hh] at hk
          exact Option.noConfusion hk
  | some existing =>
      simp only [mergeBusy, hget]
      by_cases hb : p.2.isBusy = true
      · rw [if_pos hb]
        refine ⟨pairwise_keys_mapSet _ _ _ hpair, ?_, ?_, ?_⟩
        · intro q hq
          rcases mem_mapSet _ _ _ q hq with h' | h'
          · exact hname q h'
          · rw [h']
            exact hname (p.2.username, existing) (mem_of_mapGet _ _ _ hget)
        · intro k e hk
          by_cases hu : p.2.username = k
          · rw [hu, mapGet_mapSet_self] at hk
            cases hk
            rw [busyOf_append_single]
            simp [hu, hb]
          · rw [mapGet_mapSet_ne _ _ _ _ hu] at hk
            have h1 := hbusy k e hk
            rw [busyOf_append_single]
            simp [hu, h1]
        · intro k hk q hq
          have hu : p.2.username ≠ k := by
            intro hh
            rw [hh, mapGet_mapSet_self] at hk
            exact Option.noConfusion hk
          rw [mapGet_mapSet_ne _ _ _ _ hu] at hk
          rcases List.mem_append.mp hq with hq | hq
          · exact hcover k hk q hq
          · rw [List.mem_singleton] at hq
            subst hq
            exact hu
      · rw [if_neg hb]
        have hb' : p.2.isBusy = false := Bool.not_eq_true _ ▸ Bool.eq_false_iff.mpr hb
        refine ⟨hpair, hname, ?_, ?_⟩
        · intro k e hk
          have h1 := hbusy k e hk
          rw [busyOf_append_single]
          simp [h1, hb']
        · intro k hk q hq
          rcases List.mem_append.mp hq with hq | hq
          · exact hcover k hk q hq
          · rw [List.mem_singleton] at hq
            subst hq
            intro hh
            rw [hh, hk] at hget
            exact Option.noConfusion hget

/-- Folding `mergeBusy` over a suffix preserves the dedup loop invariant. -/
theorem dedupInv_foldl (l : List (String × Session)) :
    ∀ processed acc, DedupInv processed acc →
      DedupInv (processed ++ l) (l.foldl (fun a q => mergeBusy a q.2) acc) := by
  induction l with
  | nil =>
      intro processed acc h
      simpa using h
  | cons p rest ih =>
      intro processed acc h
      have h2 := ih (processed ++ [p]) (mergeBusy acc p.2) (dedupInv_step processed acc p h)
      simpa [List.append_assoc] using h2

/-! ### Claim theorems -/

/-- C1.  Last-writer-wins routing: registration always overwrites the
username route with the registering connection, so after `register(c1, u)`
then `register(c2, u)` (with no intervening unregister) `routeTo u`
resolves to `c2`, and in general the route for a username points at the
most recently registered session for it. -/
theorem register_last_writer_wins :
    (∀ (st : RegistryState) (sock : Socket) (a : Option String),
        routeTo (registerConn st sock a) sock.username = some sock.id) ∧
    (∀ (st : RegistryState) (c1 c2 u : String) (a1 a2 : Option String),
        routeTo (registerConn (registerConn st ⟨c1, u⟩ a1) ⟨c2, u⟩ a2) u = some c2) := by
  constructor
  · intro st sock a
    simp [routeTo, registerConn]
  · intro st c1 c2 u a1 a2
    simp [routeTo, registerConn]

/-- C2 counterexample.  With two live sessions of `alice` (`c1` older, `c2`
latest), `routeTo alice = c2`; the claim says disconnecting `c1` leaves the
route in place because it points at a *different* connection, but the code
deletes `userSocketMap[alice]` unconditionally, so the route is gone even
though `c2` is still live. -/
theorem unregister_conditional_removal_counterexample :
    routeTo (registerConn (registerConn RegistryState.empty ⟨"c1", "alice"⟩ none)
        ⟨"c2", "alice"⟩ none) "alice" = some "c2" ∧
    (mapGet (disconnectConn (registerConn (registerConn RegistryState.empty
        ⟨"c1", "alice"⟩ none) ⟨"c2", "alice"⟩ none) ⟨"c1", "alice"⟩).onlineUsers
        "c2").isSome = true ∧
    routeTo (disconnectConn (registerConn (registerConn RegistryState.empty
        ⟨"c1", "alice"⟩ none) ⟨"c2", "alice"⟩ none) ⟨"c1", "alice"⟩) "alice" = none := by
  refine ⟨rfl, rfl, rfl⟩

/-- C2 amended.  `unregister(connectionId)` removes the session from
`sessionsById` and removes the `latestConnectionByUsername` entry for the
session's username *unconditionally* — even when that entry points at a
different, still-live session of the same username. -/
theorem unregister_removes_route_unconditionally :
    ∀ (st : RegistryState) (sock : Socket),
      mapGet (disconnectConn st sock).onlineUsers sock.id = none ∧
      routeTo (disconnectConn st sock) sock.username = none := by
  intro st sock
  exact ⟨mapGet_mapDelete_self _ _, mapGet_mapDelete_self _ _⟩

/-- C4.  A `private-chat` event with a payload object always produces
exactly one persistence write (kind `private`, receiver `data.to`),
whether or not the recipient is online, and the emitted events always
include an echo to the sender's own connection tagged with the sender's
username and the time. -/
theorem private_chat_persists_once_and_echoes :
    ∀ (st : RegistryState) (sender : Socket) (time : String) (d : PrivateChatData),
      ∃ evs, privateChat st sender time (some d) =
          .ok ([⟨sender.username, d.sendTo, none, d.text, d.image, "private"⟩], evs) ∧
        (⟨sender.id, d, sender.username, time⟩ : PrivateChatEvent) ∈ evs := by
  intro st sender time d
  refine ⟨_, rfl, ?_⟩
  exact List.mem_append.mpr (Or.inr (List.mem_singleton.mpr rfl))

/-- C5.  When the named target username has no route, `initiate-call`
emits exactly one `call-rejected` event back to the caller, with
`from = "System"` and `reason = "offline"`, and no `incoming-call` event
to anyone. -/
theorem offline_call_rejected (st : RegistryState) (sender : Socket)
    (d : InitiateCallData) (u : String) (htarget : d.target = some u)
    (hroute : routeTo st u = none) :
    initiateCall st sender (some d) = .ok [.callRejected sender.id "System" "offline"] := by
  simp only [routeTo] at hroute
  simp [initiateCall, optGet, htarget, hroute, jsFalsy]

/-- C5 witness: on the empty registry, a call from `alice` to the offline
`bob` is rejected with reason `offline`. -/
theorem offline_call_rejected_witness :
    routeTo RegistryState.empty "bob" = none ∧
    initiateCall RegistryState.empty ⟨"c1", "alice"⟩
        (some ⟨some "bob", some "r1", some "video", some "meeting"⟩) =
      .ok [.callRejected "c1" "System" "offline"] :=
  ⟨rfl, offline_call_rejected RegistryState.empty ⟨"c1", "alice"⟩
    ⟨some "bob", some "r1", some "video", some "meeting"⟩ "bob" rfl rfl⟩

/-- C9.  Every client event handler reads a property of its payload object
first, so an absent payload (`undefined`) makes every one of the seven
handlers throw a `TypeError` instead of ignoring the event. -/
theorem absent_payload_throws :
    ∀ (st : RegistryState) (sender : Socket) (time : String) (α : Type),
      initiateCall st sender none = .error .typeError ∧
      joinHandler st sender none = .error .typeError ∧
      chatMessage sender time none = .error .typeError ∧
      privateChat st sender time none = .error .typeError ∧
      offerHandler sender (none : Option (SignalData α)) = .error .typeError ∧
      answerHandler sender (none : Option (SignalData α)) = .error .typeError ∧
      iceHandler sender (none : Option (SignalData α)) = .error .typeError := by
  intro st sender time α
  exact ⟨rfl, rfl, rfl, rfl, rfl, rfl, rfl⟩

/-- C7 counterexample.  `alice`'s only session `c1` calls the username
`alice`: the route resolves to the caller's own connection, but
`socket.to(targetId)` excludes the sender, so zero `incoming-call` events
are delivered — refuting delivery "including the case where t is c's own
connection". -/
theorem self_call_no_delivery_counterexample :
    routeTo (registerConn RegistryState.empty ⟨"c1", "alice"⟩ none) "alice" = some "c1" ∧
    initiateCall (registerConn RegistryState.empty ⟨"c1", "alice"⟩ none) ⟨"c1", "alice"⟩
        (some ⟨some "alice", some "r1", some "video", some "meeting"⟩) = .ok [] := by
  refine ⟨rfl, rfl⟩

/-- C7 amended.  When `routeTo` resolves the target username to a
connection `t` (a real, nonempty socket id), `initiate-call` delivers
exactly one `incoming-call` event to `t` carrying the caller's username,
the room, the call type and the mode — *unless* `t` is the caller's own
connection, in which case `socket.to` excludes the sender and zero
`incoming-call` events are delivered. -/
theorem incoming_call_delivery (st : RegistryState) (sender : Socket)
    (d : InitiateCallData) (u t : String) (htarget : d.target = some u)
    (hroute : routeTo st u = some t) (ht : t ≠ "") :
    initiateCall st sender (some d) =
      .ok (if t = sender.id then []
           else [.incomingCall t sender.username d.room d.type d.callMode]) := by
  simp only [routeTo] at hroute
  by_cases hself : t = sender.id
  · subst hself
    simp [initiateCall, optGet, htarget, hroute, jsFalsy, ht, socketTo]
  · simp [initiateCall, optGet, htarget, hroute, jsFalsy, ht, socketTo, hself]

/-- C7 witness: `alice` (connection `c1`) calls the online `bob`
(connection `c2` ≠ `c1`), and exactly one `incoming-call` reaches `c2`. -/
theorem incoming_call_delivery_witness :
    routeTo (registerConn (registerConn RegistryState.empty ⟨"c1", "alice"⟩ none)
        ⟨"c2", "bob"⟩ none) "bob" = some "c2" ∧
    initiateCall (registerConn (registerConn RegistryState.empty ⟨"c1", "alice"⟩ none)
        ⟨"c2", "bob"⟩ none) ⟨"c1", "alice"⟩
        (some ⟨some "bob", some "r1", some "video", some "meeting"⟩) =
      .ok [.incomingCall "c2" "alice" (some "r1") (some "video") (some "meeting")] := by
  constructor
  · rfl
  · have h := incoming_call_delivery
      (registerConn (registerConn RegistryState.empty ⟨"c1", "alice"⟩ none) ⟨"c2", "bob"⟩ none)
      ⟨"c1", "alice"⟩ ⟨some "bob", some "r1", some "video", some "meeting"⟩
      "bob" "c2" rfl rfl (by decide)
    simpa using h

/-- C8.  For `offer`, `answer` and `ice`, every delivered event targets
the payload's named connection and carries the handshake body unmodified,
with exactly the added routing metadata: `from` = the sender's connection
id on all three, plus the sender's username on `offer` only. -/
theorem signal_forward_unmodified :
    ∀ (α : Type) (sender : Socket) (d : SignalData α),
      (∀ evs, offerHandler sender (some d) = .ok evs →
        ∀ e ∈ evs, e.body = d.body ∧ e.fromId = sender.id ∧
          e.username = some sender.username ∧ d.sendTo = some e.recipient) ∧
      (∀ evs, answerHandler sender (some d) = .ok evs →
        ∀ e ∈ evs, e.body = d.body ∧ e.fromId = sender.id ∧
          e.username = none ∧ d.sendTo = some e.recipient) ∧
      (∀ evs, iceHandler sender (some d) = .ok evs →
        ∀ e ∈ evs, e.body = d.body ∧ e.fromId = sender.id ∧
          e.username = none ∧ d.sendTo = some e.recipient) := by
  intro α sender d
  refine ⟨?_, ?_, ?_⟩ <;>
  · intro evs hevs e he
    simp only [offerHandler, answerHandler, iceHandler, Except.ok.injEq] at hevs
    subst hevs
    rcases List.mem_map.mp he with ⟨t, ht, rfl⟩
    exact ⟨rfl, rfl, rfl, (mem_socketTo sender.id t d.sendTo ht).1⟩

/-- C8 witness: a concrete offer from `c1` to `c2` with body `7` arrives
with the body unchanged and exactly the added metadata. -/
theorem signal_forward_unmodified_witness :
    offerHandler ⟨"c1", "alice"⟩ (some (⟨some "c2", some 7⟩ : SignalData Nat)) =
      .ok [⟨"c2", some 7, "c1", some "alice"⟩] ∧
    ((⟨"c2", some 7, "c1", some "alice"⟩ : SignalEvent Nat).body = some 7 ∧
      (⟨"c2", some 7, "c1", some "alice"⟩ : SignalEvent Nat).fromId = "c1" ∧
      (⟨"c2", some 7, "c1", some "alice"⟩ : SignalEvent Nat).username = some "alice" ∧
      (⟨some "c2", some 7⟩ : SignalData Nat).sendTo = some "c2") :=
  ⟨rfl, (signal_forward_unmodified Nat ⟨"c1", "alice"⟩ ⟨some "c2", some 7⟩).1
    [⟨"c2", some 7, "c1", some "alice"⟩] rfl _ (List.mem_singleton.mpr rfl)⟩

/-- C10 counterexample.  A second `join` whose payload lacks the `room`
field overwrites `currentRoom` with `undefined` while the session is still
live, refuting "no operation ever clears currentRoom while the session
lives" (the busy flag does stay `true`). -/
theorem roomless_join_clears_room_counterexample :
    mapGet (applyOp (applyOp RegistryState.empty (.reg ⟨"c1", "alice"⟩ none))
        (.join ⟨"c1", "alice"⟩ (some "r1"))).onlineUsers "c1" =
      some ⟨"alice", true, some "r1", none⟩ ∧
    mapGet (applyOp (applyOp (applyOp RegistryState.empty (.reg ⟨"c1", "alice"⟩ none))
        (.join ⟨"c1", "alice"⟩ (some "r1"))) (.join ⟨"c1", "alice"⟩ none)).onlineUsers "c1" =
      some ⟨"alice", true, none, none⟩ := by
  refine ⟨rfl, rfl⟩

/-- C10 amended.  `isBusy` starts `false` at registration and is monotone:
the only write (the `join` handler) sets it to `true`, and no operation
resets it while the session lives, so once busy a session stays busy until
it disconnects.  `currentRoom`, once set, is never cleared *except* by a
`join` whose payload has no `room` field, which overwrites it with
`undefined`. -/
theorem busy_monotone :
    (∀ (st : RegistryState) (sock : Socket) (a : Option String),
        mapGet st.onlineUsers sock.id = none →
        mapGet (applyOp st (.reg sock a)).onlineUsers sock.id =
          some ⟨sock.username, false, none, a⟩) ∧
    (∀ (st : RegistryState) (op : Op) (c : String) (sess sess' : Session),
        wfOp st op →
        mapGet st.onlineUsers c = some sess →
        mapGet (applyOp st op).onlineUsers c = some sess' →
        (sess.isBusy = true → sess'.isBusy = true) ∧
        (sess.currentRoom.isSome = true → (∀ s : Socket, op ≠ .join s none) →
          sess'.currentRoom.isSome = true)) := by
  constructor
  · intro st sock a _hfresh
    simp [applyOp, registerConn]
  · intro st op c sess sess' hwf hget hget'
    cases op with
    | reg sock a =>
        have hne : c ≠ sock.id := by
          intro h; rw [h, hwf] at hget; exact Option.noConfusion hget
        simp only [applyOp, registerConn] at hget'
        rw [mapGet_mapSet_ne _ _ _ _ (Ne.symm hne), hget] at hget'
        cases hget'
        exact ⟨fun h => h, fun h _ => h⟩
    | join sock room =>
        simp only [applyOp, joinRoom] at hget'
        cases huser : mapGet st.onlineUsers sock.id with
        | none =>
            rw [huser] at hget'
            rw [hget] at hget'
            cases hget'
            exact ⟨fun h => h, fun h _ => h⟩
        | some user =>
            rw [huser] at hget'
            by_cases hc : c = sock.id
            · subst hc
              rw [mapGet_mapSet_self] at hget'
              cases hget'
              refine ⟨fun _ => rfl, fun _ hop => ?_⟩
              cases room with
              | none => exact absurd rfl (hop sock)
              | some r => rfl
            · rw [mapGet_mapSet_ne _ _ _ _ (fun h => hc h.symm), hget] at hget'
              cases hget'
              exact ⟨fun h => h, fun h _ => h⟩
    | disc sock =>
        simp only [applyOp, disconnectConn] at hget'
        have hne : c ≠ sock.id := by
          intro h
          rw [h, mapGet_mapDelete_self] at hget'
          exact Option.noConfusion hget'
        rw [mapGet_mapDelete_ne _ _ _ (Ne.symm hne), hget] at hget'
        cases hget'
        exact ⟨fun h => h, fun h _ => h⟩

/-- C3.  The deduplicated presence view contains at most one entry per
distinct username, and an entry is busy exactly when at least one
underlying session with that username is busy. -/
theorem dedup_presence_view (l : List (String × Session)) :
    List.Pairwise (fun a b => a.username ≠ b.username) (getUniqueOnlineUsers l) ∧
    ∀ e, e ∈ getUniqueOnlineUsers l →
      (e.isBusy = true ↔ ∃ p, p ∈ l ∧ p.2.username = e.username ∧ p.2.isBusy = true) := by
  have hbase : DedupInv [] [] := by
    refine ⟨List.Pairwise.nil, by simp, ?_, by simp⟩
    intro k e hk
    simp [mapGet] at hk
  have hfold := dedupInv_foldl l [] [] hbase
  rw [List.nil_append] at hfold
  obtain ⟨hpair, hname, hbusy, _⟩ := hfold
  constructor
  · unfold getUniqueOnlineUsers
    rw [List.pairwise_map]
    refine hpair.imp_of_mem ?_
    intro a b ha hb hab
    rw [hname a ha, hname b hb]
    exact hab
  · intro e he
    unfold getUniqueOnlineUsers at he
    rcases List.mem_map.mp he with ⟨q, hq, rfl⟩
    have huser := hname q hq
    have hget : mapGet (l.foldl (fun a p => mergeBusy a p.2) []) q.1 = some q.2 :=
      mapGet_of_mem _ _ _ hpair (by simpa using hq)
    have hb := hbusy q.1 q.2 hget
    rw [hb, ← huser]
    rw [busyOf, List.any_eq_true]
    constructor
    · rintro ⟨x, hx, hfx⟩
      simp only [Bool.and_eq_true, beq_iff_eq] at hfx
      exact ⟨x, hx, hfx.1, hfx.2⟩
    · rintro ⟨x, hx, h1, h2⟩
      exact ⟨x, hx, by simp [h1, h2]⟩

/-- C3 witness: two sessions of `alice` (one busy) collapse to a single
busy entry, whose busy flag is witnessed by the second session. -/
theorem dedup_presence_view_witness :
    (⟨"alice", true, none, none⟩ : Session) ∈
      getUniqueOnlineUsers [("c1", ⟨"alice", false, none, none⟩),
        ("c2", ⟨"alice", true, some "r1", none⟩)] ∧
    ((⟨"alice", true, none, none⟩ : Session).isBusy = true ↔
      ∃ p, p ∈ [("c1", (⟨"alice", false, none, none⟩ : Session)),
          ("c2", ⟨"alice", true, some "r1", none⟩)] ∧
        p.2.username = (⟨"alice", true, none, none⟩ : Session).username ∧
        p.2.isBusy = true) :=
  ⟨by decide,
   (dedup_presence_view [("c1", ⟨"alice", false, none, none⟩),
      ("c2", ⟨"alice", true, some "r1", none⟩)]).2
    ⟨"alice", true, none, none⟩ (by decide)⟩

/-- Every reachable registry state routes usernames only to live sessions
that carry that username. -/
theorem reachable_routesLive (st : RegistryState) (h : Reachable st) : routesLive st := by
  induction h with
  | init =>
      intro u c hroute
      simp [RegistryState.empty] at hroute
  | step st op _hr hwf ih =>
      intro u c hroute
      cases op with
      | reg sock a =>
          simp only [wfOp] at hwf
          simp only [applyOp, registerConn] at hroute ⊢
          by_cases hu : sock.username = u
          · subst hu
            rw [mapGet_mapSet_self] at hroute
            injection hroute with hroute
            subst hroute
            exact ⟨⟨sock.username, false, none, a⟩, mapGet_mapSet_self _ _ _, rfl⟩
          · rw [mapGet_mapSet_ne _ _ _ _ hu] at hroute
            obtain ⟨sess, hsess, huser⟩ := ih u c hroute
            have hc : sock.id ≠ c := by
              intro h'
              rw [← h', hwf] at hsess
              exact Option.noConfusion hsess
            exact ⟨sess, by rw [mapGet_mapSet_ne _ _ _ _ hc]; exact hsess, huser⟩
      | join sock room =>
          have husm : (joinRoom st sock room).userSocketMap = st.userSocketMap := by
            unfold joinRoom
            cases mapGet st.onlineUsers sock.id <;> rfl
          simp only [applyOp] at hroute ⊢
          rw [husm] at hroute
          obtain ⟨sess, hsess, huser⟩ := ih u c hroute
          cases hj : mapGet st.onlineUsers sock.id with
          | none =>
              refine ⟨sess, ?_, huser⟩
              unfold joinRoom
              rw [hj]
              exact hsess
          | some user =>
              by_cases hc : c = sock.id
              · subst hc
                have huser2 : user = sess := by
                  rw [hsess] at hj
                  injection hj with h'
                  exact h'.symm
                refine ⟨{ user with isBusy := true, currentRoom := room }, ?_, ?_⟩
                · unfold joinRoom
                  rw [hj]
                  exact mapGet_mapSet_self _ _ _
                · rw [show ({ user with isBusy := true, currentRoom := room } : Session).username
                      = user.username from rfl, huser2]
                  exact huser
              · refine ⟨sess, ?_, huser⟩
                unfold joinRoom
                rw [hj]
                show mapGet (mapSet st.onlineUsers sock.id _) c = some sess
                rw [mapGet_mapSet_ne _ _ _ _ (fun h' => hc h'.symm)]
                exact hsess
      | disc sock =>
          simp only [wfOp] at hwf
          simp only [applyOp, disconnectConn] at hroute ⊢
          have hu : sock.username ≠ u := by
            intro h'
            rw [← h', mapGet_mapDelete_self] at hroute
            exact Option.noConfusion hroute
          rw [mapGet_mapDelete_ne _ _ _ hu] at hroute
          obtain ⟨sess, hsess, huser⟩ := ih u c hroute
          have hc : sock.id ≠ c := by
            intro h'
            rw [← h'] at hsess
            exact hu ((hwf sess hsess).symm.trans huser)
          exact ⟨sess, by rw [mapGet_mapDelete_ne _ _ _ hc]; exact hsess, huser⟩

/-- C6.  In every state reachable by well-formed register / join /
disconnect sequences, every connectionId stored as a value in
`userSocketMap` is a key currently present in `onlineUsers`. -/
theorem route_values_live (st : RegistryState) (h : Reachable st) (u c : String)
    (hroute : mapGet st.userSocketMap u = some c) :
    (mapGet st.onlineUsers c).isSome = true := by
  obtain ⟨sess, hsess, _⟩ := reachable_routesLive st h u c hroute
  rw [hsess]
  rfl

/-- C6 witness: after registering `alice` on `c1`, the route for `alice`
points at a live session. -/
theorem route_values_live_witness :
    mapGet (applyOp RegistryState.empty (.reg ⟨"c1", "alice"⟩ none)).userSocketMap "alice" =
      some "c1" ∧
    (mapGet (applyOp RegistryState.empty
        (.reg ⟨"c1", "alice"⟩ none)).onlineUsers "c1").isSome = true :=
  ⟨rfl, route_values_live _
    (Reachable.step RegistryState.empty (.reg ⟨"c1", "alice"⟩ none) Reachable.init rfl)
    "alice" "c1" rfl⟩

/-- C10 witness: `isBusy` is `false` at registration, and a busy session
stays busy across a later registration of another connection. -/
theorem busy_monotone_witness :
    mapGet (applyOp RegistryState.empty (.reg ⟨"c1", "alice"⟩ none)).onlineUsers "c1" =
      some ⟨"alice", false, none, none⟩ ∧
    (⟨"alice", true, some "r1", none⟩ : Session).isBusy = true :=
  ⟨busy_monotone.1 RegistryState.empty ⟨"c1", "alice"⟩ none rfl,
   (busy_monotone.2
      (applyOp (applyOp RegistryState.empty (.reg ⟨"c1", "alice"⟩ none))
        (.join ⟨"c1", "alice"⟩ (some "r1")))
      (.reg ⟨"c2", "bob"⟩ none) "c1"
      ⟨"alice", true, some "r1", none⟩ ⟨"alice", true, some "r1", none⟩
      rfl rfl rfl).1 rfl⟩

end VChat
